import Mathlib

/-!
Verification development for the ethercalc-client repository.

The repository ships two revisions of the same single-module client
(src/index.js, an older CommonJS revision, and the current ES-module
revision found under src/unnamed/part_000).  The definitions below embed
the current ES-module revision; where the older revision differs in a
way that matters to a stated property, the difference is noted at the
relevant theorem.

The client is a thin HTTP wrapper: every public operation builds one
request, hands it to the shared axios transport, and maps the outcome
through a per-operation result handler.  We embed each operation as
  - a request builder (method, path, body, headers, per-call timeout),
  - a total function from the transport outcome to the returned value.
The transport itself is external (axios); it is modelled as a function
from requests to outcomes, passed as a parameter.  An axios promise
either fulfills with a response object (always a truthy object carrying
status, statusText and decoded data) or rejects with an error object
whose response field is present exactly when the server answered with a
non-2xx status.
-/

set_option maxRecDepth 4096
set_option maxHeartbeats 1000000

namespace Ethercalc

/-- A value as it appears in an object literal handed to qs.stringify:
a string, an array of strings, or undefined (qs omits undefined). -/
inductive QsVal where
  | str (s : String)
  | arr (vs : List String)
  | undef
  deriving DecidableEq

/-- HTTP method of a request issued by the client. -/
inductive Method where
  | get
  | post
  | put
  | delete
  deriving DecidableEq

/-- Request body as built by the client: nothing, an object literal that
is form-encoded with qs.stringify on the wire, a raw byte buffer
(Buffer.from of a snapshot string), or a streamed file. -/
inductive Body where
  | empty
  | form (pairs : List (String × QsVal))
  | raw (bytes : List Nat)
  | fileStream (path : String)
  deriving DecidableEq

/-- One HTTP request as configured by an operation of the client.
timeout is the per-call override passed in the axios config; none means
the instance-level default timeout applies. -/
structure Request where
  method : Method
  path : String
  body : Body
  headers : List (String × String)
  timeout : Option Nat
  deriving DecidableEq

/-- An HTTP response as axios delivers it: numeric status, reason
phrase, and the decoded body (of endpoint-dependent type α). -/
structure HttpResponse (α : Type) where
  status : Nat
  statusText : String
  data : α
  deriving DecidableEq

/-- An axios rejection value: response is present exactly when the
server answered with a non-2xx status; cause carries the underlying
transport-level failure information (of type ε). -/
structure AxiosError (α ε : Type) where
  response : Option (HttpResponse α)
  cause : ε
  deriving DecidableEq

/-- Outcome of awaiting one axios request. -/
inductive AxiosOutcome (α ε : Type) where
  | fulfilled (response : HttpResponse α)
  | rejected (error : AxiosError α ε)
  deriving DecidableEq

/-- The JavaScript value an operation resolves to: a decoded body, a
boolean, the normalized status/message object, the raw axios error
object passed through, or a synchronously returned Error value. -/
inductive JsValue (α ε : Type) where
  | data (a : α)
  | bool (b : Bool)
  | statusMessage (status : Nat) (message : String)
  | rawError (e : AxiosError α ε)
  | jsError (message : String)
  deriving DecidableEq

/-- A transport: what the shared axios instance does with a request. -/
def Transport (α ε : Type) : Type := Request → AxiosOutcome α ε

variable {α ε : Type}

/-- The transport that rejects every request with the given error
(a network failure or an HTTP error response, depending on whether the
response field is present). -/
def rejectWith (e : AxiosError α ε) : Transport α ε :=
  fun _ => AxiosOutcome.rejected e

/-- The transport that fulfills every request with the given
response. -/
def fulfillWith (resp : HttpResponse α) : Transport α ε :=
  fun _ => AxiosOutcome.fulfilled resp

/-- Placeholder snapshot constant DEFAULT_SNAPSHOT of the module. -/
def DEFAULT_SNAPSHOT : String := "..."

/-- JavaScript truthiness of an optional string argument: null and
undefined are falsy, and so is the empty string. -/
def roomTruthy : Option String → Bool
  | none => false
  | some s => s ≠ ""

/-- The expression (snapshot || d): the given snapshot when it is a
truthy string, otherwise the default d. -/
def jsOrDefault (snapshot : Option String) (d : String) : String :=
  match snapshot with
  | none => d
  | some s => if s = "" then d else s

/-- Lift an optional string argument into a qs.stringify object value
(an absent argument appears as undefined in the object literal). -/
def qsValOf : Option String → QsVal
  | none => QsVal.undef
  | some s => QsVal.str s

/-- Request built by getRoom: GET /_/{room}. -/
def getRoomRequest (room : String) : Request :=
  { method := Method.get, path := "/_/" ++ room, body := Body.empty,
    headers := [], timeout := none }

/-- getRoom: fetch the socialcalc snapshot of a room; on an error with a
response return the status info, otherwise return the error itself. -/
def getRoom (room : String) (t : Transport α ε) : JsValue α ε :=
  match t (getRoomRequest room) with
  | AxiosOutcome.fulfilled response => JsValue.data response.data
  | AxiosOutcome.rejected error =>
    match error.response with
    | some r => JsValue.statusMessage r.status r.statusText
    | none => JsValue.rawError error

/-- Request built by createRoom.  With a truthy room id it posts the
form {room, snapshot} to /_/{room}; otherwise it posts
{snapshot: snapshot || DEFAULT_SNAPSHOT} to /_.  Both branches pass the
config {timeout: 10000}. -/
def createRoomRequest (room snapshot : Option String) : Request :=
  if roomTruthy room then
    { method := Method.post, path := "/_/" ++ room.getD "",
      body := Body.form [("room", qsValOf room), ("snapshot", qsValOf snapshot)],
      headers := [], timeout := some 10000 }
  else
    { method := Method.post, path := "/_",
      body := Body.form [("snapshot", QsVal.str (jsOrDefault snapshot DEFAULT_SNAPSHOT))],
      headers := [], timeout := some 10000 }

/-- createRoom: both branches share the same result handling. -/
def createRoom (room snapshot : Option String) (t : Transport α ε) : JsValue α ε :=
  match t (createRoomRequest room snapshot) with
  | AxiosOutcome.fulfilled response => JsValue.data response.data
  | AxiosOutcome.rejected error =>
    match error.response with
    | some r => JsValue.statusMessage r.status r.statusText
    | none => JsValue.rawError error

/-- Content-type dispatch of overwrite.  A recognized format yields the
PUT request with the single matching Content-Type header and the raw
snapshot bytes as body; any other format yields none (the function
returns an Error value without touching the transport). -/
def overwriteRequest (room : String) (snapshot : List Nat) (type : String) :
    Option Request :=
  if type = "socialcalc" then
    some { method := Method.put, path := "/_/" ++ room, body := Body.raw snapshot,
           headers := [("Content-Type", "text/x-socialcalc")], timeout := none }
  else if type = "xlsx" then
    some { method := Method.put, path := "/_/" ++ room, body := Body.raw snapshot,
           headers := [("Content-Type",
             "application/vnd.openxmlformats-officedocument.spreadsheetml.sheet")],
           timeout := none }
  else if type = "csv" then
    some { method := Method.put, path := "/_/" ++ room, body := Body.raw snapshot,
           headers := [("Content-Type", "text/csv")], timeout := none }
  else
    none

/-- overwrite: validate the format, then PUT the snapshot.  The snapshot
is modelled by its byte content (Buffer.from of the snapshot string). -/
def overwrite (room : String) (snapshot : List Nat) (type : String)
    (t : Transport α ε) : JsValue α ε :=
  match overwriteRequest room snapshot type with
  | none => JsValue.jsError "Format must be one of socialcalc, xlsx or csv!"
  | some req =>
    match t req with
    | AxiosOutcome.fulfilled response => JsValue.data response.data
    | AxiosOutcome.rejected error =>
      match error.response with
      | some r => JsValue.statusMessage r.status r.statusText
      | none => JsValue.rawError error

/-- Request built by createRoomFromCSVFile: POST /_/ streaming the file,
with a text/csv content type.  The config passed to axios contains only
the headers; no per-call timeout override is present. -/
def createRoomFromCSVFileRequest (path : String) : Request :=
  { method := Method.post, path := "/_/", body := Body.fileStream path,
    headers := [("Content-Type", "text/csv")], timeout := none }

/-- createRoomFromCSVFile with the standard result handling. -/
def createRoomFromCSVFile (path : String) (t : Transport α ε) : JsValue α ε :=
  match t (createRoomFromCSVFileRequest path) with
  | AxiosOutcome.fulfilled response => JsValue.data response.data
  | AxiosOutcome.rejected error =>
    match error.response with
    | some r => JsValue.statusMessage r.status r.statusText
    | none => JsValue.rawError error

/-- Request built by deleteRoom: DELETE /_/{room}. -/
def deleteRoomRequest (room : String) : Request :=
  { method := Method.delete, path := "/_/" ++ room, body := Body.empty,
    headers := [], timeout := none }

/-- deleteRoom: a fulfilled promise always carries a response object,
which as an object is truthy, so the success branch returns true without
inspecting status or body; errors get the standard handling. -/
def deleteRoom (room : String) (t : Transport α ε) : JsValue α ε :=
  match t (deleteRoomRequest room) with
  | AxiosOutcome.fulfilled _ => JsValue.bool true
  | AxiosOutcome.rejected error =>
    match error.response with
    | some r => JsValue.statusMessage r.status r.statusText
    | none => JsValue.rawError error

/-- Request built by roomExists: GET /_exists/{room}. -/
def roomExistsRequest (room : String) : Request :=
  { method := Method.get, path := "/_exists/" ++ room, body := Body.empty,
    headers := [], timeout := none }

/-- roomExists: the success branch returns the decoded body (the
response object is truthy); the catch branch returns false for every
kind of failure. -/
def roomExists (room : String) (t : Transport α ε) : JsValue α ε :=
  match t (roomExistsRequest room) with
  | AxiosOutcome.fulfilled response => JsValue.data response.data
  | AxiosOutcome.rejected _ => JsValue.bool false

/-- String.prototype.toLowerCase as it acts on the format names handled
by exportRoom: basic latin upper-case letters map to lower case (the
exotic Unicode case mappings cannot produce any of the recognized
format names, so they are irrelevant to the dispatch below). -/
def jsToLower (s : String) : String :=
  String.mk (s.data.map Char.toLower)

/-- The type normalization of exportRoom, applied after lower-casing:
keep a recognized export type, otherwise default to csv. -/
def exportTypeOrCsv (t : String) : String :=
  if t = "csv.json" ∨ t = "xlsx" ∨ t = "md" ∨ t = "html" then t else "csv"

/-- Request built by exportRoom: GET /_/{room}/{type} after
lower-casing the type and defaulting unrecognized types to csv. -/
def exportRoomRequest (room type : String) : Request :=
  { method := Method.get,
    path := "/_/" ++ room ++ "/" ++ exportTypeOrCsv (jsToLower type),
    body := Body.empty, headers := [], timeout := none }

/-- exportRoom on a string type, with the standard result handling. -/
def exportRoom (room type : String) (t : Transport α ε) : JsValue α ε :=
  match t (exportRoomRequest room type) with
  | AxiosOutcome.fulfilled response => JsValue.data response.data
  | AxiosOutcome.rejected error =>
    match error.response with
    | some r => JsValue.statusMessage r.status r.statusText
    | none => JsValue.rawError error

/-- The type argument of exportRoom as a dynamically typed JavaScript
value: exportRoom immediately evaluates type.toLowerCase(), so only the
string case proceeds. -/
inductive JsStringArg where
  | jsNull
  | jsUndefined
  | jsString (s : String)
  deriving DecidableEq

/-- JavaScript member call argument.toLowerCase(): member access on
null or undefined throws a TypeError; on a string it lower-cases. -/
def jsMemberToLowerCase : JsStringArg → Except String String
  | JsStringArg.jsNull =>
    Except.error "TypeError: Cannot read properties of null (reading toLowerCase)"
  | JsStringArg.jsUndefined =>
    Except.error "TypeError: Cannot read properties of undefined (reading toLowerCase)"
  | JsStringArg.jsString s => Except.ok (jsToLower s)

/-- exportRoom under JavaScript dynamic typing: the call throws (the
async function rejects) when type.toLowerCase() throws, and otherwise
builds the same request exportRoom builds for the string. -/
def exportRoomDyn (room : String) (type : JsStringArg) : Except String Request :=
  match jsMemberToLowerCase type with
  | Except.error e => Except.error e
  | Except.ok t =>
    Except.ok
      { method := Method.get, path := "/_/" ++ room ++ "/" ++ exportTypeOrCsv t,
        body := Body.empty, headers := [], timeout := none }

/-- Request built by listRooms: GET /_rooms. -/
def listRoomsRequest : Request :=
  { method := Method.get, path := "/_rooms", body := Body.empty,
    headers := [], timeout := none }

/-- listRooms with the standard result handling. -/
def listRooms (t : Transport α ε) : JsValue α ε :=
  match t listRoomsRequest with
  | AxiosOutcome.fulfilled response => JsValue.data response.data
  | AxiosOutcome.rejected error =>
    match error.response with
    | some r => JsValue.statusMessage r.status r.statusText
    | none => JsValue.rawError error

/-- Request built by postCommand: POST /_/{room} with the form body
{command}, where command is a single string or an array of strings. -/
def postCommandRequest (room : String) (command : QsVal) : Request :=
  { method := Method.post, path := "/_/" ++ room,
    body := Body.form [("command", command)], headers := [], timeout := none }

/-- postCommand with the standard result handling. -/
def postCommand (room : String) (command : QsVal) (t : Transport α ε) :
    JsValue α ε :=
  match t (postCommandRequest room command) with
  | AxiosOutcome.fulfilled response => JsValue.data response.data
  | AxiosOutcome.rejected error =>
    match error.response with
    | some r => JsValue.statusMessage r.status r.statusText
    | none => JsValue.rawError error

/-- Request built by appendRowsFromCSVFile: POST /_/{room} streaming the
file with a text/csv content type; no per-call timeout override. -/
def appendRowsFromCSVFileRequest (room path : String) : Request :=
  { method := Method.post, path := "/_/" ++ room, body := Body.fileStream path,
    headers := [("Content-Type", "text/csv")], timeout := none }

/-- appendRowsFromCSVFile with the standard result handling. -/
def appendRowsFromCSVFile (room path : String) (t : Transport α ε) :
    JsValue α ε :=
  match t (appendRowsFromCSVFileRequest room path) with
  | AxiosOutcome.fulfilled response => JsValue.data response.data
  | AxiosOutcome.rejected error =>
    match error.response with
    | some r => JsValue.statusMessage r.status r.statusText
    | none => JsValue.rawError error

/-- Request built by getCells: GET /_/{room}/cells. -/
def getCellsRequest (room : String) : Request :=
  { method := Method.get, path := "/_/" ++ room ++ "/cells", body := Body.empty,
    headers := [], timeout := none }

/-- getCells with the standard result handling. -/
def getCells (room : String) (t : Transport α ε) : JsValue α ε :=
  match t (getCellsRequest room) with
  | AxiosOutcome.fulfilled response => JsValue.data response.data
  | AxiosOutcome.rejected error =>
    match error.response with
    | some r => JsValue.statusMessage r.status r.statusText
    | none => JsValue.rawError error

/-- Request built by getCellValue: GET /_/{room}/cells/{coord}. -/
def getCellValueRequest (room coord : String) : Request :=
  { method := Method.get, path := "/_/" ++ room ++ "/cells/" ++ coord,
    body := Body.empty, headers := [], timeout := none }

/-- getCellValue with the standard result handling. -/
def getCellValue (room coord : String) (t : Transport α ε) : JsValue α ε :=
  match t (getCellValueRequest room coord) with
  | AxiosOutcome.fulfilled response => JsValue.data response.data
  | AxiosOutcome.rejected error =>
    match error.response with
    | some r => JsValue.statusMessage r.status r.statusText
    | none => JsValue.rawError error

/-- Request built by getHTML: GET /_/{room}/html. -/
def getHTMLRequest (room : String) : Request :=
  { method := Method.get, path := "/_/" ++ room ++ "/html", body := Body.empty,
    headers := [], timeout := none }

/-- getHTML with the standard result handling. -/
def getHTML (room : String) (t : Transport α ε) : JsValue α ε :=
  match t (getHTMLRequest room) with
  | AxiosOutcome.fulfilled response => JsValue.data response.data
  | AxiosOutcome.rejected error =>
    match error.response with
    | some r => JsValue.statusMessage r.status r.statusText
    | none => JsValue.rawError error

/-- Request built by getCSV: GET /_/{room}/csv. -/
def getCSVRequest (room : String) : Request :=
  { method := Method.get, path := "/_/" ++ room ++ "/csv", body := Body.empty,
    headers := [], timeout := none }

/-- getCSV with the standard result handling. -/
def getCSV (room : String) (t : Transport α ε) : JsValue α ε :=
  match t (getCSVRequest room) with
  | AxiosOutcome.fulfilled response => JsValue.data response.data
  | AxiosOutcome.rejected error =>
    match error.response with
    | some r => JsValue.statusMessage r.status r.statusText
    | none => JsValue.rawError error

/-!
Wire encoding of form bodies.  qs.stringify with its default options
percent-encodes keys and values following RFC 3986 (unreserved bytes
are the alphanumerics and minus, dot, underscore, tilde; every other
byte of the UTF-8 encoding becomes a %HH escape), renders an array
value as one key[index]=value entry per element in index order, omits
undefined values, and joins the entries with ampersands.
-/

/-- UTF-8 encoding of one Unicode scalar value. -/
def utf8EncodeCp (n : Nat) : List Nat :=
  if n < 0x80 then
    [n]
  else if n < 0x800 then
    [0xC0 + n / 0x40, 0x80 + n % 0x40]
  else if n < 0x10000 then
    [0xE0 + n / 0x1000, 0x80 + n / 0x40 % 0x40, 0x80 + n % 0x40]
  else
    [0xF0 + n / 0x40000, 0x80 + n / 0x1000 % 0x40, 0x80 + n / 0x40 % 0x40,
      0x80 + n % 0x40]

/-- The UTF-8 bytes of a string. -/
def strBytes (s : String) : List Nat :=
  s.data.flatMap (fun c => utf8EncodeCp c.toNat)

/-- RFC 3986 unreserved bytes, the ones qs leaves unescaped. -/
def isUnreservedByte (b : Nat) : Bool :=
  (0x30 ≤ b && b ≤ 0x39) || (0x41 ≤ b && b ≤ 0x5A) || (0x61 ≤ b && b ≤ 0x7A) ||
    b = 0x2D || b = 0x2E || b = 0x5F || b = 0x7E

/-- Upper-case hexadecimal digit character for a value below 16. -/
def hexDigitChar (n : Nat) : Char :=
  if n < 10 then Char.ofNat (0x30 + n) else Char.ofNat (0x41 + n - 10)

/-- Percent-encoding of one byte: unreserved bytes stand for
themselves, every other byte becomes a %HH escape. -/
def encByte (b : Nat) : List Char :=
  if isUnreservedByte b then [Char.ofNat b]
  else ['%', hexDigitChar (b / 16), hexDigitChar (b % 16)]

/-- Percent-encoding of a string, byte by byte over its UTF-8 form. -/
def qsEncodeStr (s : String) : List Char :=
  (strBytes s).flatMap encByte

/-- The encoded key[index]=value entries qs.stringify produces for an
array value, iterating the array in index order starting at n. -/
def qsArrEntries (k : String) (n : Nat) : List String → List (List Char)
  | [] => []
  | v :: vs =>
    (qsEncodeStr (k ++ "[" ++ toString n ++ "]") ++ '=' :: qsEncodeStr v) ::
      qsArrEntries k (n + 1) vs

/-- The encoded key=value entries qs.stringify produces for one key of
the object literal, in order. -/
def qsEntries (k : String) (v : QsVal) : List (List Char) :=
  match v with
  | QsVal.undef => []
  | QsVal.str s => [qsEncodeStr k ++ '=' :: qsEncodeStr s]
  | QsVal.arr vs => qsArrEntries k 0 vs

/-- Join encoded entries with ampersands. -/
def joinAmp : List (List Char) → List Char
  | [] => []
  | [e] => e
  | e :: es => e ++ '&' :: joinAmp es

/-- qs.stringify on an object literal: the ampersand-joined entries of
its keys in insertion order. -/
def qsStringify (pairs : List (String × QsVal)) : List Char :=
  joinAmp (pairs.flatMap fun p => qsEntries p.1 p.2)

/-!
Decoding functions.  These are the inverse direction used to state what
the encoded body contains: splitting at ampersands, dropping the key up
to the first equals sign, percent-decoding and UTF-8-decoding.
-/

/-- Split a character list at ampersands. -/
def splitAmp : List Char → List (List Char)
  | [] => [[]]
  | c :: rest =>
    if c = '&' then [] :: splitAmp rest
    else
      match splitAmp rest with
      | [] => [[c]]
      | s :: ss => (c :: s) :: ss

/-- Drop everything up to and including the first equals sign. -/
def afterEq : List Char → List Char
  | [] => []
  | c :: rest => if c = '=' then rest else afterEq rest

/-- Numeric value of a hexadecimal digit character. -/
def hexVal (c : Char) : Option Nat :=
  if '0' ≤ c ∧ c ≤ '9' then some (c.toNat - 0x30)
  else if 'A' ≤ c ∧ c ≤ 'F' then some (c.toNat - 0x41 + 10)
  else if 'a' ≤ c ∧ c ≤ 'f' then some (c.toNat - 0x61 + 10)
  else none

/-- Percent-decoding back to bytes. -/
def pctDecode : List Char → Option (List Nat)
  | [] => some []
  | c :: rest =>
    if c = '%' then
      match rest with
      | h :: l :: rest2 =>
        match hexVal h, hexVal l with
        | some hv, some lv => (pctDecode rest2).map fun bs => (hv * 16 + lv) :: bs
        | _, _ => none
      | _ => none
    else if isUnreservedByte c.toNat then
      (pctDecode rest).map fun bs => c.toNat :: bs
    else none

/-- Decode one UTF-8-encoded scalar value from the head of a byte list,
returning the scalar and the remaining bytes; rejects malformed,
overlong, surrogate and out-of-range sequences. -/
def utf8DecodeOne : List Nat → Option (Nat × List Nat)
  | [] => none
  | b :: rest =>
    if b < 0x80 then some (b, rest)
    else if b < 0xC0 then none
    else if b < 0xE0 then
      match rest with
      | b2 :: rest2 =>
        if 0x80 ≤ b2 ∧ b2 < 0xC0 then
          if (b - 0xC0) * 0x40 + (b2 - 0x80) < 0x80 then none
          else some ((b - 0xC0) * 0x40 + (b2 - 0x80), rest2)
        else none
      | _ => none
    else if b < 0xF0 then
      match rest with
      | b2 :: b3 :: rest2 =>
        if (0x80 ≤ b2 ∧ b2 < 0xC0) ∧ (0x80 ≤ b3 ∧ b3 < 0xC0) then
          if (b - 0xE0) * 0x1000 + (b2 - 0x80) * 0x40 + (b3 - 0x80) < 0x800 ∨
              (0xD800 ≤ (b - 0xE0) * 0x1000 + (b2 - 0x80) * 0x40 + (b3 - 0x80) ∧
                (b - 0xE0) * 0x1000 + (b2 - 0x80) * 0x40 + (b3 - 0x80) < 0xE000) then
            none
          else some ((b - 0xE0) * 0x1000 + (b2 - 0x80) * 0x40 + (b3 - 0x80), rest2)
        else none
      | _ => none
    else if b < 0xF8 then
      match rest with
      | b2 :: b3 :: b4 :: rest2 =>
        if (0x80 ≤ b2 ∧ b2 < 0xC0) ∧ (0x80 ≤ b3 ∧ b3 < 0xC0) ∧
            (0x80 ≤ b4 ∧ b4 < 0xC0) then
          if (b - 0xF0) * 0x40000 + (b2 - 0x80) * 0x1000 + (b3 - 0x80) * 0x40 +
                (b4 - 0x80) < 0x10000 ∨
              0x110000 ≤ (b - 0xF0) * 0x40000 + (b2 - 0x80) * 0x1000 +
                (b3 - 0x80) * 0x40 + (b4 - 0x80) then
            none
          else
            some ((b - 0xF0) * 0x40000 + (b2 - 0x80) * 0x1000 +
              (b3 - 0x80) * 0x40 + (b4 - 0x80), rest2)
        else none
      | _ => none
    else none

/-- Fuelled UTF-8 decoding loop: decode one scalar at a time.  The fuel
bounds the number of decoded characters; a byte list of length n never
holds more than n characters, so length-many steps always suffice. -/
def utf8DecodeLoop : Nat → List Nat → Option (List Char)
  | 0, l => if l = [] then some [] else none
  | fuel + 1, l =>
    if l = [] then some []
    else
      match utf8DecodeOne l with
      | some (n, rest2) => (utf8DecodeLoop fuel rest2).map fun cs => Char.ofNat n :: cs
      | none => none

/-- UTF-8 decoding of a byte list back to characters. -/
def utf8Decode (l : List Nat) : Option (List Char) :=
  utf8DecodeLoop l.length l

/-- Decode one encoded key=value entry to the value string. -/
def decodeEntryValue (seg : List Char) : Option String :=
  match pctDecode (afterEq seg) with
  | some bs =>
    match utf8Decode bs with
    | some cs => some (String.mk cs)
    | none => none
  | none => none

/-- Read the ordered list of values out of an encoded form body. -/
def decodeFormValues (body : List Char) : Option (List String) :=
  if body = [] then some []
  else (splitAmp body).mapM decodeEntryValue

/-- The object-literal pairs carried by a form body (empty for the
other body kinds). -/
def Body.formPairs : Body → List (String × QsVal)
  | Body.form pairs => pairs
  | _ => []

/-- Request built by getJSON: GET /_/{room}/csv.json. -/
def getJSONRequest (room : String) : Request :=
  { method := Method.get, path := "/_/" ++ room ++ "/csv.json",
    body := Body.empty, headers := [], timeout := none }

/-- getJSON with the standard result handling. -/
def getJSON (room : String) (t : Transport α ε) : JsValue α ε :=
  match t (getJSONRequest room) with
  | AxiosOutcome.fulfilled response => JsValue.data response.data
  | AxiosOutcome.rejected error =>
    match error.response with
    | some r => JsValue.statusMessage r.status r.statusText
    | none => JsValue.rawError error

/-!
Helper lemmas about the wire encoding, leading to the roundtrip fact
that decoding an encoded form body recovers the encoded values in
order.
-/

theorem encByte_no_amp_eq : ∀ b, b < 256 → ('&' ∉ encByte b ∧ '=' ∉ encByte b) := by
  decide

theorem unreserved_char_facts : ∀ b, b < 256 → isUnreservedByte b = true →
    ((Char.ofNat b = '%') = False ∧ isUnreservedByte (Char.ofNat b).toNat = true ∧
      (Char.ofNat b).toNat = b) := by
  decide

theorem hexVal_hexDigitChar : ∀ n, n < 16 → hexVal (hexDigitChar n) = some n := by
  decide

theorem pctDecode_encByte (b : Nat) (hb : b < 256) (cs : List Char) :
    pctDecode (encByte b ++ cs) = (pctDecode cs).map (fun ds => b :: ds) := by
  by_cases hu : isUnreservedByte b
  · obtain ⟨h1, h2, h3⟩ := unreserved_char_facts b hb hu
    rw [encByte, if_pos hu, List.cons_append, List.nil_append, pctDecode.eq_def]
    simp only [h1, if_false, h2, if_true, h3, hu]
  · rw [encByte, if_neg hu]
    simp only [List.cons_append, List.nil_append]
    rw [pctDecode.eq_def]
    simp only [if_pos rfl]
    rw [hexVal_hexDigitChar _ (by omega), hexVal_hexDigitChar _ (by omega)]
    have hbb : b / 16 * 16 + b % 16 = b := by omega
    simp only [hbb, if_true]

theorem pctDecode_flatMap (bs : List Nat) (h : ∀ b ∈ bs, b < 256) (cs : List Char) :
    pctDecode (bs.flatMap encByte ++ cs) = (pctDecode cs).map (fun ds => bs ++ ds) := by
  induction bs with
  | nil =>
    simp only [List.flatMap_nil, List.nil_append]
    cases pctDecode cs <;> rfl
  | cons b rest ih =>
    simp only [List.flatMap_cons, List.append_assoc]
    rw [pctDecode_encByte b (h b (by simp)) _, ih (fun x hx => h x (by simp [hx]))]
    cases pctDecode cs <;> rfl

theorem utf8DecodeOne_encodeCp (n : Nat)
    (h : n < 0xD800 ∨ (0xDFFF < n ∧ n < 0x110000)) (rest : List Nat) :
    utf8DecodeOne (utf8EncodeCp n ++ rest) = some (n, rest) := by
  have hlt : n < 0x110000 := by rcases h with h | ⟨h1, h2⟩ <;> omega
  rw [utf8EncodeCp]
  by_cases h1 : n < 0x80
  · rw [if_pos h1]
    simp only [List.cons_append, List.nil_append]
    rw [utf8DecodeOne.eq_def]
    simp only [h1, if_true]
  · rw [if_neg h1]
    by_cases h2 : n < 0x800
    · rw [if_pos h2]
      simp only [List.cons_append, List.nil_append]
      rw [utf8DecodeOne.eq_def]
      have c1 : ¬(0xC0 + n / 0x40 < 0x80) := by omega
      have c2 : ¬(0xC0 + n / 0x40 < 0xC0) := by omega
      have c3 : 0xC0 + n / 0x40 < 0xE0 := by omega
      have c4 : 0x80 ≤ 0x80 + n % 0x40 := by omega
      have c5 : 0x80 + n % 0x40 < 0xC0 := by omega
      have c6 : (0xC0 + n / 0x40 - 0xC0) * 0x40 + (0x80 + n % 0x40 - 0x80) = n := by
        omega
      simp only [c1, c2, c3, c4, c5, c6, and_self, if_true, if_false, h1, if_neg,
        not_false_eq_true]
    · rw [if_neg h2]
      by_cases h3 : n < 0x10000
      · rw [if_pos h3]
        simp only [List.cons_append, List.nil_append]
        rw [utf8DecodeOne.eq_def]
        have c1 : ¬(0xE0 + n / 0x1000 < 0x80) := by omega
        have c2 : ¬(0xE0 + n / 0x1000 < 0xC0) := by omega
        have c3 : ¬(0xE0 + n / 0x1000 < 0xE0) := by omega
        have c4 : 0xE0 + n / 0x1000 < 0xF0 := by omega
        have c5 : 0x80 ≤ 0x80 + n / 0x40 % 0x40 := by omega
        have c6 : 0x80 + n / 0x40 % 0x40 < 0xC0 := by omega
        have c7 : 0x80 ≤ 0x80 + n % 0x40 := by omega
        have c8 : 0x80 + n % 0x40 < 0xC0 := by omega
        have c9 : (0xE0 + n / 0x1000 - 0xE0) * 0x1000 +
            (0x80 + n / 0x40 % 0x40 - 0x80) * 0x40 + (0x80 + n % 0x40 - 0x80) = n := by
          omega
        have hs : ¬(n < 0x800 ∨ (0xD800 ≤ n ∧ n < 0xE000)) := by
          rcases h with h | ⟨ha, hb⟩ <;> omega
        simp only [c1, c2, c3, c4, c5, c6, c7, c8, c9, and_self, if_true, hs,
          if_false, if_neg, not_false_eq_true]
      · rw [if_neg h3]
        simp only [List.cons_append, List.nil_append]
        rw [utf8DecodeOne.eq_def]
        have c1 : ¬(0xF0 + n / 0x40000 < 0x80) := by omega
        have c2 : ¬(0xF0 + n / 0x40000 < 0xC0) := by omega
        have c3 : ¬(0xF0 + n / 0x40000 < 0xE0) := by omega
        have c4 : ¬(0xF0 + n / 0x40000 < 0xF0) := by omega
        have c5 : 0xF0 + n / 0x40000 < 0xF8 := by omega
        have c6 : 0x80 ≤ 0x80 + n / 0x1000 % 0x40 := by omega
        have c7 : 0x80 + n / 0x1000 % 0x40 < 0xC0 := by omega
        have c8 : 0x80 ≤ 0x80 + n / 0x40 % 0x40 := by omega
        have c9 : 0x80 + n / 0x40 % 0x40 < 0xC0 := by omega
        have c10 : 0x80 ≤ 0x80 + n % 0x40 := by omega
        have c11 : 0x80 + n % 0x40 < 0xC0 := by omega
        have c12 : (0xF0 + n / 0x40000 - 0xF0) * 0x40000 +
            (0x80 + n / 0x1000 % 0x40 - 0x80) * 0x1000 +
            (0x80 + n / 0x40 % 0x40 - 0x80) * 0x40 + (0x80 + n % 0x40 - 0x80) = n := by
          omega
        have hs : ¬(n < 0x10000 ∨ 0x110000 ≤ n) := by omega
        simp only [c1, c2, c3, c4, c5, c6, c7, c8, c9, c10, c11, c12, and_self,
          if_true, hs, if_false, if_neg, not_false_eq_true]

theorem utf8EncodeCp_ne_nil (n : Nat) : utf8EncodeCp n ≠ [] := by
  rw [utf8EncodeCp]
  split
  · simp
  · split
    · simp
    · split <;> simp

theorem one_le_length_utf8EncodeCp (n : Nat) : 1 ≤ (utf8EncodeCp n).length := by
  rw [utf8EncodeCp]
  split
  · simp
  · split
    · simp
    · split <;> simp

theorem char_valid_nat (c : Char) :
    c.toNat < 0xD800 ∨ (0xDFFF < c.toNat ∧ c.toNat < 0x110000) := by
  rcases c.valid with h | ⟨h1, h2⟩
  · left
    exact h
  · right
    exact ⟨h1, h2⟩

theorem utf8DecodeLoop_encode (cs : List Char) : ∀ fuel, cs.length ≤ fuel →
    utf8DecodeLoop fuel (cs.flatMap fun c => utf8EncodeCp c.toNat) = some cs := by
  induction cs with
  | nil =>
    intro fuel _
    cases fuel with
    | zero =>
      rw [utf8DecodeLoop]
      simp
    | succ f =>
      rw [utf8DecodeLoop]
      simp
  | cons c rest ih =>
    intro fuel hf
    cases fuel with
    | zero => simp at hf
    | succ f =>
      rw [utf8DecodeLoop]
      have hne : ((c :: rest).flatMap fun c => utf8EncodeCp c.toNat) ≠ [] := by
        simp only [List.flatMap_cons]
        intro hemp
        rcases List.append_eq_nil.mp hemp with ⟨hh, _⟩
        exact utf8EncodeCp_ne_nil _ hh
      rw [if_neg hne]
      simp only [List.flatMap_cons]
      rw [utf8DecodeOne_encodeCp c.toNat (char_valid_nat c) _]
      have hrest : rest.length ≤ f := by
        simp only [List.length_cons] at hf
        omega
      simp only [ih f hrest, Char.ofNat_toNat]
      rfl

theorem length_le_length_flatMapEnc (cs : List Char) :
    cs.length ≤ (cs.flatMap fun c => utf8EncodeCp c.toNat).length := by
  induction cs with
  | nil => simp
  | cons c rest ih =>
    simp only [List.flatMap_cons, List.length_append, List.length_cons]
    have := one_le_length_utf8EncodeCp c.toNat
    omega

theorem utf8Decode_encode (cs : List Char) :
    utf8Decode (cs.flatMap fun c => utf8EncodeCp c.toNat) = some cs := by
  rw [utf8Decode]
  exact utf8DecodeLoop_encode cs _ (length_le_length_flatMapEnc cs)

theorem utf8EncodeCp_lt_256 (n : Nat) (h : n < 0x110000) :
    ∀ b ∈ utf8EncodeCp n, b < 256 := by
  intro b hb
  rw [utf8EncodeCp] at hb
  split at hb
  · simp at hb
    omega
  · split at hb
    · simp at hb
      rcases hb with hb | hb <;> omega
    · split at hb
      · simp at hb
        rcases hb with hb | hb | hb <;> omega
      · simp at hb
        rcases hb with hb | hb | hb | hb <;> omega

theorem strBytes_lt_256 (s : String) : ∀ b ∈ strBytes s, b < 256 := by
  intro b hb
  rw [strBytes] at hb
  simp only [List.mem_flatMap] at hb
  obtain ⟨c, _, hbc⟩ := hb
  have := char_valid_nat c
  exact utf8EncodeCp_lt_256 c.toNat (by omega) b hbc

theorem qsEncodeStr_no_amp (s : String) : '&' ∉ qsEncodeStr s := by
  intro hm
  rw [qsEncodeStr] at hm
  simp only [List.mem_flatMap] at hm
  obtain ⟨b, hb, hbm⟩ := hm
  exact (encByte_no_amp_eq b (strBytes_lt_256 s b hb)).1 hbm

theorem qsEncodeStr_no_eq (s : String) : '=' ∉ qsEncodeStr s := by
  intro hm
  rw [qsEncodeStr] at hm
  simp only [List.mem_flatMap] at hm
  obtain ⟨b, hb, hbm⟩ := hm
  exact (encByte_no_amp_eq b (strBytes_lt_256 s b hb)).2 hbm

theorem splitAmp_no_amp (s : List Char) (h : '&' ∉ s) : splitAmp s = [s] := by
  induction s with
  | nil => rfl
  | cons c rest ih =>
    rw [splitAmp]
    have hc : ¬(c = '&') := fun hc => h (by simp [hc])
    rw [if_neg hc, ih (fun hm => h (List.mem_cons_of_mem _ hm))]

theorem splitAmp_append (s r : List Char) (h : '&' ∉ s) :
    splitAmp (s ++ '&' :: r) = s :: splitAmp r := by
  induction s with
  | nil =>
    simp only [List.nil_append]
    rw [splitAmp, if_pos rfl]
  | cons c rest ih =>
    simp only [List.cons_append]
    rw [splitAmp]
    have hc : ¬(c = '&') := fun hc => h (by simp [hc])
    rw [if_neg hc, ih (fun hm => h (List.mem_cons_of_mem _ hm))]

theorem splitAmp_joinAmp (es : List (List Char)) (hne : es ≠ [])
    (h : ∀ e ∈ es, '&' ∉ e) : splitAmp (joinAmp es) = es := by
  induction es with
  | nil => exact absurd rfl hne
  | cons e rest ih =>
    cases rest with
    | nil =>
      have hj : joinAmp [e] = e := rfl
      rw [hj, splitAmp_no_amp e (h e (by simp))]
    | cons e2 rest2 =>
      have hj : joinAmp (e :: e2 :: rest2) = e ++ '&' :: joinAmp (e2 :: rest2) := rfl
      rw [hj, splitAmp_append _ _ (h e (by simp)),
        ih (by simp) (fun x hx => h x (List.mem_cons_of_mem _ hx))]

theorem afterEq_append (k v : List Char) (h : '=' ∉ k) :
    afterEq (k ++ '=' :: v) = v := by
  induction k with
  | nil =>
    simp only [List.nil_append]
    rw [afterEq, if_pos rfl]
  | cons c rest ih =>
    simp only [List.cons_append]
    rw [afterEq]
    have hc : ¬(c = '=') := fun hc => h (by simp [hc])
    rw [if_neg hc, ih (fun hm => h (List.mem_cons_of_mem _ hm))]

theorem pctDecode_qsEncodeStr (s : String) :
    pctDecode (qsEncodeStr s) = some (strBytes s) := by
  have h2 := pctDecode_flatMap (strBytes s) (strBytes_lt_256 s) []
  rw [List.append_nil] at h2
  rw [qsEncodeStr, h2]
  simp [pctDecode]

theorem decodeEntryValue_entry (k v : String) :
    decodeEntryValue (qsEncodeStr k ++ '=' :: qsEncodeStr v) = some v := by
  rw [decodeEntryValue, afterEq_append _ _ (qsEncodeStr_no_eq k),
    pctDecode_qsEncodeStr]
  have h3 : utf8Decode (strBytes v) = some v.data := by
    rw [strBytes]
    exact utf8Decode_encode v.data
  simp only [h3]

theorem mapM_decode_qsArrEntries (k : String) (vs : List String) : ∀ n : Nat,
    (qsArrEntries k n vs).mapM decodeEntryValue = some vs := by
  induction vs with
  | nil =>
    intro n
    rfl
  | cons v rest ih =>
    intro n
    rw [qsArrEntries]
    simp only [List.mapM_cons, decodeEntryValue_entry, ih (n + 1)]
    rfl

theorem qsArrEntries_no_amp (k : String) (vs : List String) :
    ∀ n, ∀ e ∈ qsArrEntries k n vs, '&' ∉ e := by
  induction vs with
  | nil =>
    intro n e he
    simp [qsArrEntries] at he
  | cons v rest ih =>
    intro n e he
    rw [qsArrEntries] at he
    rcases List.mem_cons.mp he with h | h
    · subst h
      intro hm
      rcases List.mem_append.mp hm with h1 | h1
      · exact qsEncodeStr_no_amp _ h1
      · rcases List.mem_cons.mp h1 with h2 | h2
        · exact absurd h2 (by decide)
        · exact qsEncodeStr_no_amp _ h2
    · exact ih (n + 1) e h

theorem entry_ne_nil (k v : String) : qsEncodeStr k ++ '=' :: qsEncodeStr v ≠ [] := by
  cases h : qsEncodeStr k <;> simp

theorem joinAmp_ne_nil (e : List Char) (es : List (List Char)) (he : e ≠ []) :
    joinAmp (e :: es) ≠ [] := by
  cases es with
  | nil => exact he
  | cons e2 rest =>
    have hj : joinAmp (e :: e2 :: rest) = e ++ '&' :: joinAmp (e2 :: rest) := rfl
    rw [hj]
    simp

/-!
The claims, settled against the definitions above.
-/

/-- C1 counterexample: roomExists does not apply the status/message
normalization: on an HTTP 404 error response it resolves to the boolean
false, not to the status descriptor. -/
theorem c1_roomExists_not_normalized :
    roomExists "r" (rejectWith
      { response := some { status := 404, statusText := "Not Found", data := false },
        cause := () }) = JsValue.bool false ∧
    (JsValue.bool false : JsValue Bool Unit) ≠ JsValue.statusMessage 404 "Not Found" :=
  ⟨rfl, by decide⟩

/-- C1 (amended): for every operation other than roomExists, a failure
carrying an HTTP response resolves to the status/message descriptor of
that response; roomExists instead resolves to the boolean false. -/
theorem c1_error_normalization (α ε : Type) (resp : HttpResponse α) (c : ε) :
    (∀ room, getRoom room (rejectWith { response := some resp, cause := c }) =
      JsValue.statusMessage resp.status resp.statusText) ∧
    (∀ room snapshot, createRoom room snapshot
        (rejectWith { response := some resp, cause := c }) =
      JsValue.statusMessage resp.status resp.statusText) ∧
    (∀ room snapshot, overwrite room snapshot "socialcalc"
        (rejectWith { response := some resp, cause := c }) =
      JsValue.statusMessage resp.status resp.statusText) ∧
    (∀ room snapshot, overwrite room snapshot "xlsx"
        (rejectWith { response := some resp, cause := c }) =
      JsValue.statusMessage resp.status resp.statusText) ∧
    (∀ room snapshot, overwrite room snapshot "csv"
        (rejectWith { response := some resp, cause := c }) =
      JsValue.statusMessage resp.status resp.statusText) ∧
    (∀ path, createRoomFromCSVFile path
        (rejectWith { response := some resp, cause := c }) =
      JsValue.statusMessage resp.status resp.statusText) ∧
    (∀ room, deleteRoom room (rejectWith { response := some resp, cause := c }) =
      JsValue.statusMessage resp.status resp.statusText) ∧
    (∀ room type, exportRoom room type
        (rejectWith { response := some resp, cause := c }) =
      JsValue.statusMessage resp.status resp.statusText) ∧
    (listRooms (rejectWith { response := some resp, cause := c }) =
      JsValue.statusMessage resp.status resp.statusText) ∧
    (∀ room command, postCommand room command
        (rejectWith { response := some resp, cause := c }) =
      JsValue.statusMessage resp.status resp.statusText) ∧
    (∀ room path, appendRowsFromCSVFile room path
        (rejectWith { response := some resp, cause := c }) =
      JsValue.statusMessage resp.status resp.statusText) ∧
    (∀ room, getCells room (rejectWith { response := some resp, cause := c }) =
      JsValue.statusMessage resp.status resp.statusText) ∧
    (∀ room coord, getCellValue room coord
        (rejectWith { response := some resp, cause := c }) =
      JsValue.statusMessage resp.status resp.statusText) ∧
    (∀ room, getHTML room (rejectWith { response := some resp, cause := c }) =
      JsValue.statusMessage resp.status resp.statusText) ∧
    (∀ room, getCSV room (rejectWith { response := some resp, cause := c }) =
      JsValue.statusMessage resp.status resp.statusText) ∧
    (∀ room, getJSON room (rejectWith { response := some resp, cause := c }) =
      JsValue.statusMessage resp.status resp.statusText) ∧
    (∀ room, roomExists room (rejectWith { response := some resp, cause := c }) =
      JsValue.bool false) := by
  refine ⟨fun _ => rfl, fun _ _ => rfl, fun _ _ => rfl, fun _ _ => rfl,
    fun _ _ => rfl, fun _ => rfl, fun _ => rfl, fun _ _ => rfl, rfl,
    fun _ _ => rfl, fun _ _ => rfl, fun _ => rfl, fun _ _ => rfl, fun _ => rfl,
    fun _ => rfl, fun _ => rfl, fun _ => rfl⟩

/-- C2: overwrite validates its format synchronously.  Any format other
than socialcalc, xlsx, csv yields no request (the transport is never
consulted) and the returned Error value; each accepted format yields
the PUT request carrying exactly the documented Content-Type header. -/
theorem c2_overwrite_format_validation :
    (∀ (room : String) (snapshot : List Nat) (type : String),
      type ≠ "socialcalc" → type ≠ "xlsx" → type ≠ "csv" →
        overwriteRequest room snapshot type = none ∧
        ∀ (α ε : Type) (t : Transport α ε),
          overwrite room snapshot type t =
            JsValue.jsError "Format must be one of socialcalc, xlsx or csv!") ∧
    (∀ (room : String) (snapshot : List Nat),
      overwriteRequest room snapshot "socialcalc" =
        some { method := Method.put, path := "/_/" ++ room,
               body := Body.raw snapshot,
               headers := [("Content-Type", "text/x-socialcalc")],
               timeout := none }) ∧
    (∀ (room : String) (snapshot : List Nat),
      overwriteRequest room snapshot "xlsx" =
        some { method := Method.put, path := "/_/" ++ room,
               body := Body.raw snapshot,
               headers := [("Content-Type",
                 "application/vnd.openxmlformats-officedocument.spreadsheetml.sheet")],
               timeout := none }) ∧
    (∀ (room : String) (snapshot : List Nat),
      overwriteRequest room snapshot "csv" =
        some { method := Method.put, path := "/_/" ++ room,
               body := Body.raw snapshot,
               headers := [("Content-Type", "text/csv")],
               timeout := none }) := by
  refine ⟨?_, fun _ _ => rfl, fun _ _ => rfl, fun _ _ => rfl⟩
  intro room snapshot type h1 h2 h3
  have hr : overwriteRequest room snapshot type = none := by
    rw [overwriteRequest, if_neg h1, if_neg h2, if_neg h3]
  refine ⟨hr, fun α ε t => ?_⟩
  rw [overwrite, hr]

/-- C2 witness: the unrecognized format json issues no request and
returns the Error value. -/
theorem c2_overwrite_format_validation_witness :
    overwriteRequest "r" [] "json" = none ∧
    overwrite "r" [] "json"
        (rejectWith { response := none, cause := () } : Transport Bool Unit) =
      JsValue.jsError "Format must be one of socialcalc, xlsx or csv!" := by
  have h := c2_overwrite_format_validation.1 "r" [] "json"
    (by decide) (by decide) (by decide)
  exact ⟨h.1, h.2 Bool Unit _⟩

/-- C3: roomExists resolves to the decoded body on success and to the
boolean false on every failure, with or without an HTTP response. -/
theorem c3_roomExists_success_and_failure (α ε : Type) (room : String) :
    (∀ resp : HttpResponse α,
      roomExists room (fulfillWith resp : Transport α ε) = JsValue.data resp.data) ∧
    (∀ e : AxiosError α ε, roomExists room (rejectWith e) = JsValue.bool false) :=
  ⟨fun _ => rfl, fun _ => rfl⟩

/-- C4: on a transport failure with no HTTP response, every operation
other than roomExists resolves to the raw axios error object itself. -/
theorem c4_transport_failure_passthrough (α ε : Type) (c : ε) :
    (∀ room, getRoom room (rejectWith { response := none, cause := c } :
        Transport α ε) = JsValue.rawError { response := none, cause := c }) ∧
    (∀ room snapshot, createRoom room snapshot
        (rejectWith { response := none, cause := c } : Transport α ε) =
      JsValue.rawError { response := none, cause := c }) ∧
    (∀ room snapshot, overwrite room snapshot "socialcalc"
        (rejectWith { response := none, cause := c } : Transport α ε) =
      JsValue.rawError { response := none, cause := c }) ∧
    (∀ room snapshot, overwrite room snapshot "xlsx"
        (rejectWith { response := none, cause := c } : Transport α ε) =
      JsValue.rawError { response := none, cause := c }) ∧
    (∀ room snapshot, overwrite room snapshot "csv"
        (rejectWith { response := none, cause := c } : Transport α ε) =
      JsValue.rawError { response := none, cause := c }) ∧
    (∀ path, createRoomFromCSVFile path
        (rejectWith { response := none, cause := c } : Transport α ε) =
      JsValue.rawError { response := none, cause := c }) ∧
    (∀ room, deleteRoom room (rejectWith { response := none, cause := c } :
        Transport α ε) = JsValue.rawError { response := none, cause := c }) ∧
    (∀ room type, exportRoom room type
        (rejectWith { response := none, cause := c } : Transport α ε) =
      JsValue.rawError { response := none, cause := c }) ∧
    (listRooms (rejectWith { response := none, cause := c } : Transport α ε) =
      JsValue.rawError { response := none, cause := c }) ∧
    (∀ room command, postCommand room command
        (rejectWith { response := none, cause := c } : Transport α ε) =
      JsValue.rawError { response := none, cause := c }) ∧
    (∀ room path, appendRowsFromCSVFile room path
        (rejectWith { response := none, cause := c } : Transport α ε) =
      JsValue.rawError { response := none, cause := c }) ∧
    (∀ room, getCells room (rejectWith { response := none, cause := c } :
        Transport α ε) = JsValue.rawError { response := none, cause := c }) ∧
    (∀ room coord, getCellValue room coord
        (rejectWith { response := none, cause := c } : Transport α ε) =
      JsValue.rawError { response := none, cause := c }) ∧
    (∀ room, getHTML room (rejectWith { response := none, cause := c } :
        Transport α ε) = JsValue.rawError { response := none, cause := c }) ∧
    (∀ room, getCSV room (rejectWith { response := none, cause := c } :
        Transport α ε) = JsValue.rawError { response := none, cause := c }) ∧
    (∀ room, getJSON room (rejectWith { response := none, cause := c } :
        Transport α ε) = JsValue.rawError { response := none, cause := c }) := by
  refine ⟨fun _ => rfl, fun _ _ => rfl, fun _ _ => rfl, fun _ _ => rfl,
    fun _ _ => rfl, fun _ => rfl, fun _ => rfl, fun _ _ => rfl, rfl,
    fun _ _ => rfl, fun _ _ => rfl, fun _ => rfl, fun _ _ => rfl, fun _ => rfl,
    fun _ => rfl, fun _ => rfl⟩

/-- C5: exportRoom lower-cases the type; a recognized export type is
used in the GET path, any other string silently falls back to the csv
path, and a successful response resolves to its decoded body for every
type string. -/
theorem c5_exportRoom_type_dispatch (room type : String) :
    (jsToLower type = "csv.json" ∨ jsToLower type = "xlsx" ∨
        jsToLower type = "md" ∨ jsToLower type = "html" →
      exportRoomRequest room type =
        { method := Method.get,
          path := "/_/" ++ room ++ "/" ++ jsToLower type,
          body := Body.empty, headers := [], timeout := none }) ∧
    (¬(jsToLower type = "csv.json" ∨ jsToLower type = "xlsx" ∨
        jsToLower type = "md" ∨ jsToLower type = "html") →
      exportRoomRequest room type =
        { method := Method.get, path := "/_/" ++ room ++ "/" ++ "csv",
          body := Body.empty, headers := [], timeout := none }) ∧
    (∀ (α ε : Type) (resp : HttpResponse α),
      exportRoom room type (fulfillWith resp : Transport α ε) =
        JsValue.data resp.data) := by
  refine ⟨?_, ?_, fun α ε resp => rfl⟩
  · intro h
    rw [exportRoomRequest, exportTypeOrCsv, if_pos h]
  · intro h
    rw [exportRoomRequest, exportTypeOrCsv, if_neg h]

/-- C5 witness: CSV.JSON normalizes to the csv.json path and
unknownformat falls back to the csv path. -/
theorem c5_exportRoom_type_dispatch_witness :
    exportRoomRequest "r" "CSV.JSON" =
      { method := Method.get, path := "/_/" ++ "r" ++ "/" ++ jsToLower "CSV.JSON",
        body := Body.empty, headers := [], timeout := none } ∧
    exportRoomRequest "r" "unknownformat" =
      { method := Method.get, path := "/_/" ++ "r" ++ "/" ++ "csv",
        body := Body.empty, headers := [], timeout := none } :=
  ⟨(c5_exportRoom_type_dispatch "r" "CSV.JSON").1 (by decide),
   (c5_exportRoom_type_dispatch "r" "unknownformat").2.1 (by decide)⟩

/-- C6: createRoom with a truthy room id posts the form with exactly
the room and snapshot keys to the room path; with a null room id it
posts only the snapshot key to the bare collection path, defaulting an
absent snapshot to the placeholder DEFAULT_SNAPSHOT. -/
theorem c6_createRoom_request_shape :
    (∀ (r s : String), r ≠ "" →
      createRoomRequest (some r) (some s) =
        { method := Method.post, path := "/_/" ++ r,
          body := Body.form [("room", QsVal.str r), ("snapshot", QsVal.str s)],
          headers := [], timeout := some 10000 }) ∧
    (∀ s : String, s ≠ "" →
      createRoomRequest none (some s) =
        { method := Method.post, path := "/_",
          body := Body.form [("snapshot", QsVal.str s)],
          headers := [], timeout := some 10000 }) ∧
    createRoomRequest none none =
      { method := Method.post, path := "/_",
        body := Body.form [("snapshot", QsVal.str DEFAULT_SNAPSHOT)],
        headers := [], timeout := some 10000 } := by
  refine ⟨?_, ?_, rfl⟩
  · intro r s hr
    have ht : roomTruthy (some r) = true := by simp [roomTruthy, hr]
    rw [createRoomRequest, if_pos ht]
    rfl
  · intro s hs
    rw [createRoomRequest, if_neg (by simp [roomTruthy])]
    rw [jsOrDefault, if_neg hs]

/-- C6 witness: both branches at concrete inputs. -/
theorem c6_createRoom_request_shape_witness :
    createRoomRequest (some "r1") (some "snap") =
      { method := Method.post, path := "/_/" ++ "r1",
        body := Body.form [("room", QsVal.str "r1"), ("snapshot", QsVal.str "snap")],
        headers := [], timeout := some 10000 } ∧
    createRoomRequest none (some "snap") =
      { method := Method.post, path := "/_",
        body := Body.form [("snapshot", QsVal.str "snap")],
        headers := [], timeout := some 10000 } :=
  ⟨c6_createRoom_request_shape.1 "r1" "snap" (by decide),
   c6_createRoom_request_shape.2.1 "snap" (by decide)⟩

/-- C7 counterexample: createRoomFromCSVFile does not extend the
timeout; its axios config carries no per-call timeout override, so the
instance default applies rather than 10000ms. -/
theorem c7_csvfile_timeout_counterexample :
    (createRoomFromCSVFileRequest "data.csv").timeout = none ∧
    (none : Option Nat) ≠ some 10000 :=
  ⟨rfl, by decide⟩

/-- C7 (amended): createRoom extends the timeout to 10000ms in both of
its branches; every other operation, including createRoomFromCSVFile,
issues its request without a per-call timeout override. -/
theorem c7_timeout_overrides :
    (∀ room snapshot, (createRoomRequest room snapshot).timeout = some 10000) ∧
    (∀ path, (createRoomFromCSVFileRequest path).timeout = none) ∧
    (∀ room, (getRoomRequest room).timeout = none) ∧
    (∀ room snapshot type req, overwriteRequest room snapshot type = some req →
      req.timeout = none) ∧
    (∀ room, (deleteRoomRequest room).timeout = none) ∧
    (∀ room, (roomExistsRequest room).timeout = none) ∧
    (∀ room type, (exportRoomRequest room type).timeout = none) ∧
    listRoomsRequest.timeout = none ∧
    (∀ room command, (postCommandRequest room command).timeout = none) ∧
    (∀ room path, (appendRowsFromCSVFileRequest room path).timeout = none) ∧
    (∀ room, (getCellsRequest room).timeout = none) ∧
    (∀ room coord, (getCellValueRequest room coord).timeout = none) ∧
    (∀ room, (getHTMLRequest room).timeout = none) ∧
    (∀ room, (getCSVRequest room).timeout = none) ∧
    (∀ room, (getJSONRequest room).timeout = none) := by
  refine ⟨?_, fun _ => rfl, fun _ => rfl, ?_, fun _ => rfl, fun _ => rfl,
    fun _ _ => rfl, rfl, fun _ _ => rfl, fun _ _ => rfl, fun _ => rfl,
    fun _ _ => rfl, fun _ => rfl, fun _ => rfl, fun _ => rfl⟩
  · intro room snapshot
    rw [createRoomRequest]
    split <;> rfl
  · intro room snapshot type req hreq
    rw [overwriteRequest] at hreq
    split at hreq
    · cases hreq
      rfl
    · split at hreq
      · cases hreq
        rfl
      · split at hreq
        · cases hreq
          rfl
        · cases hreq

/-- C7 witness: concrete instances of the amended timeout facts,
including one accepted overwrite request. -/
theorem c7_timeout_overrides_witness :
    (createRoomRequest (some "r1") (some "snap")).timeout = some 10000 ∧
    (createRoomFromCSVFileRequest "data.csv").timeout = none ∧
    ({ method := Method.put, path := "/_/" ++ "r1", body := Body.raw [],
       headers := [("Content-Type", "text/csv")],
       timeout := none } : Request).timeout = none :=
  ⟨c7_timeout_overrides.1 (some "r1") (some "snap"),
   c7_timeout_overrides.2.1 "data.csv",
   c7_timeout_overrides.2.2.2.1 "r1" [] "csv" _ rfl⟩

/-- C8: deleteRoom resolves to true on every fulfilled response without
inspecting status or body; an error with a response resolves to the
status/message descriptor and a transport failure passes through
raw. -/
theorem c8_deleteRoom_resolution (α ε : Type) (room : String) :
    (∀ resp : HttpResponse α,
      deleteRoom room (fulfillWith resp : Transport α ε) = JsValue.bool true) ∧
    (∀ (resp : HttpResponse α) (c : ε),
      deleteRoom room (rejectWith { response := some resp, cause := c }) =
        JsValue.statusMessage resp.status resp.statusText) ∧
    (∀ c : ε,
      deleteRoom room (rejectWith { response := none, cause := c } :
          Transport α ε) =
        JsValue.rawError { response := none, cause := c }) :=
  ⟨fun _ => rfl, fun _ _ => rfl, fun _ => rfl⟩

/-- C9: the form-encoded body postCommand produces for an ordered
sequence of command strings holds exactly those commands in the same
order: decoding the encoded body recovers the input sequence. -/
theorem c9_postCommand_order_preserved (room : String) (cmds : List String) :
    decodeFormValues (qsStringify
      (Body.formPairs (postCommandRequest room (QsVal.arr cmds)).body)) =
      some cmds := by
  have hb : Body.formPairs (postCommandRequest room (QsVal.arr cmds)).body =
      [("command", QsVal.arr cmds)] := rfl
  rw [hb, qsStringify]
  simp only [List.flatMap_cons, List.flatMap_nil, List.append_nil]
  have he : qsEntries "command" (QsVal.arr cmds) = qsArrEntries "command" 0 cmds := rfl
  rw [he]
  cases cmds with
  | nil => rfl
  | cons c rest =>
    have hqa : qsArrEntries "command" 0 (c :: rest) =
        (qsEncodeStr ("command" ++ "[" ++ toString 0 ++ "]") ++
          '=' :: qsEncodeStr c) :: qsArrEntries "command" 1 rest := rfl
    have hne : joinAmp (qsArrEntries "command" 0 (c :: rest)) ≠ [] := by
      rw [hqa]
      exact joinAmp_ne_nil _ _ (entry_ne_nil _ _)
    rw [decodeFormValues, if_neg hne]
    rw [splitAmp_joinAmp _ (by rw [hqa]; simp)
      (qsArrEntries_no_amp "command" (c :: rest) 0)]
    exact mapM_decode_qsArrEntries "command" (c :: rest) 0

/-- C10: exportRoom calls toLowerCase on its type argument before any
other step, so a null or undefined type makes the call throw a
TypeError instead of falling back to the csv path, while every string
type yields the usual request. -/
theorem c10_exportRoom_requires_string_type (room : String) :
    exportRoomDyn room JsStringArg.jsNull =
      Except.error
        "TypeError: Cannot read properties of null (reading toLowerCase)" ∧
    exportRoomDyn room JsStringArg.jsUndefined =
      Except.error
        "TypeError: Cannot read properties of undefined (reading toLowerCase)" ∧
    (∀ s : String, exportRoomDyn room (JsStringArg.jsString s) =
      Except.ok (exportRoomRequest room s)) :=
  ⟨rfl, rfl, fun _ => rfl⟩

end Ethercalc
